import Mathlib

/-!
Verification development for the ambry library synchronization engine
(`ambry/library/__init__.py`): reference resolution, the artifact-state
ledger, the three synchronization procedures (`sync_library`,
`sync_remotes`, `push`) and the `Library` facade operations
(`put_bundle`, `put_partition`, `remove`, `has`).

The Python code is shallowly embedded: cache keys are strings, the two
regular expressions used by the last-version-only filter of
`sync_remotes` are embedded as executable character-list scanners,
stateful loops become folds over explicit state, and Python exceptions
become `Except` or an explicit error component of the result.
-/

namespace Ambry

/-! ## Cache-key version extraction (`sync_remotes`, last_only branch)

The source computes, for each remote cache key:
  - `nv_key`, the key with every occurrence of the pattern
    `-\d+\.\d+\.\d+\.db` removed by `re.sub`
    (the key with every version suffix occurrence removed), and
  - `version`, the integer value of the first group of
    `re.search` over the pattern `(\d+)\.db$`
    (the trailing digit group immediately before the final `.db`);
    when the search fails an `AttributeError` is caught and logged,
    and `version` keeps whatever value it had from a previous loop
    iteration (it is never initialized before the loop).
-/

/-- Matcher for one occurrence of the pattern `-\d+\.\d+\.\d+\.db` at the
head of the character list. Returns the remaining characters after the
match. The greedy digit runs need no backtracking because the character
required after each run (a dot) is not a digit. -/
def matchVerSuffix (l : List Char) : Option (List Char) :=
  match l with
  | '-' :: r0 =>
    let d1 := r0.takeWhile Char.isDigit
    let r1 := r0.dropWhile Char.isDigit
    if d1.isEmpty then none else
    match r1 with
    | '.' :: r2 =>
      let d2 := r2.takeWhile Char.isDigit
      let r3 := r2.dropWhile Char.isDigit
      if d2.isEmpty then none else
      match r3 with
      | '.' :: r4 =>
        let d3 := r4.takeWhile Char.isDigit
        let r5 := r4.dropWhile Char.isDigit
        if d3.isEmpty then none else
        match r5 with
        | '.' :: 'd' :: 'b' :: r6 => some r6
        | _ => none
      | _ => none
    | _ => none
  | _ => none

/-- `re.sub` over the pattern `-\d+\.\d+\.\d+\.db`: scan left to right,
removing each non-overlapping occurrence. Fuel-driven recursion; the
fuel is set to the length of the input, which suffices because every
step consumes at least one character. -/
def subVerSuffix : Nat → List Char → List Char
  | 0, l => l
  | _ + 1, [] => []
  | n + 1, c :: rest =>
    match matchVerSuffix (c :: rest) with
    | some r => subVerSuffix n r
    | none => c :: subVerSuffix n rest

/-- `nv_key`: the cache key with all `-N.N.N.db` version suffixes removed. -/
def nvKey (s : String) : String :=
  ⟨subVerSuffix s.data.length s.data⟩

/-- Value of a digit list, most significant first (`int` of the group). -/
def digitsVal (l : List Char) : Nat :=
  l.foldl (fun a c => a * 10 + (c.toNat - 48)) 0

/-- The search for the pattern `(\d+)\.db$`: the maximal digit run immediately
before the final `.db`, or `none` when the search fails (pattern
anchored at the end of the string). -/
def searchVersion (s : String) : Option Nat :=
  match s.data.reverse with
  | 'b' :: 'd' :: '.' :: rest =>
    let ds := rest.takeWhile Char.isDigit
    if ds.isEmpty then none else some (digitsVal ds.reverse)
  | _ => none

/-! ## The `last_keys` defaultdict loop

`last_keys` is a defaultdict whose default entry is the pair of 0 and
the empty string; for each remote key the
code reads `last_keys[nv_key][0]` (which inserts the default entry when
the group is new) and replaces the entry when `version` is strictly
greater. The `version` variable is threaded through iterations as an
`Option Nat`: `none` means it is still unbound, and comparing while
unbound is a Python `NameError`, which aborts `sync_remotes`.
-/

/-- Groups table: association list from `nv_key` to
`(best version, best cache key)`, in insertion order. -/
abbrev LastKeys := List (String × Nat × String)

/-- `defaultdict` read: return the table (with the default entry
`(0, "")` appended when the group key is absent) and the entry value. -/
def lkGet (m : LastKeys) (k : String) : LastKeys × Nat × String :=
  match m.find? (fun p => p.1 == k) with
  | some p => (m, p.2)
  | none => (m ++ [(k, 0, "")], 0, "")

/-- In-place update of the entry for the group key `k`. -/
def lkSet : LastKeys → String → Nat × String → LastKeys
  | [], k, v => [(k, v)]
  | p :: rest, k, v => if p.1 == k then (k, v) :: rest else p :: lkSet rest k v

/-- The grouping loop of the `last_only` branch. The second component of
the state is the `version` local variable; `Except.error ()` is the
`NameError` raised when `version` is compared while still unbound. -/
def lastKeysLoop : List String → LastKeys → Option Nat → Except Unit LastKeys
  | [], m, _ => .ok m
  | k :: rest, m, ver =>
    let ver' : Option Nat :=
      match searchVersion k with
      | some v => some v
      | none => ver
    match ver' with
    | none => .error ()
    | some v =>
      let (m', cur) := lkGet m (nvKey k)
      if v > cur.1 then
        lastKeysLoop rest (lkSet m' (nvKey k) (v, k)) ver'
      else
        lastKeysLoop rest m' ver'

/-- `use_only`: the surviving cache key of every group, in table order
(the second element of each `last_keys` value). -/
def computeUseOnly (remoteList : List String) : Except Unit (List String) :=
  (lastKeysLoop remoteList [] none).map (fun m => m.map (fun p => p.2.2))

/-! ## The per-key install loop of `sync_remotes`

For each listed key the source skips keys already attributed to the
remote (`all_keys`), applies the `use_only` filter, fetches the bundle
via `_get_bundle_by_cache_key` (only `S3ResponseError` is caught there;
a falsy result is logged and skipped), applies the optional `vids`
filter, and calls `put_bundle`. A `NotABundle` from `put_bundle` is
logged and the loop continues; any other exception is logged and then
re-raised, aborting the pass.
-/

/-- Outcome of `_get_bundle_by_cache_key` for one key. `s3Error` is an
`S3ResponseError` (caught in the loop), `loadRaise` is any other
exception escaping the load (not caught in the loop), `noBundle` is a
falsy result, `bundle vid` is a successful load. -/
inductive FetchResult
  | s3Error
  | loadRaise
  | noBundle
  | bundle (vid : String)
  deriving DecidableEq, Repr

/-- Outcome of `put_bundle` for one fetched bundle. -/
inductive PutResult
  | ok
  | notABundle
  | otherError
  deriving DecidableEq, Repr

/-- Errors that abort a `sync_remotes` pass. -/
inductive SyncError
  | nameError
  | loadError (key : String)
  | putError (key : String)
  deriving DecidableEq, Repr

/-- Environment of one remote pass: the fetch and install behavior per
key, the keys already recorded for this remote (`all_keys`), and the
optional `vids` restriction. -/
structure SyncParams where
  fetch : String → FetchResult
  put : String → PutResult
  allKeys : List String
  vids : Option (List String)

/-- The guard `use_only and cache_key not in use_only`: an empty list is
falsy in Python, so an empty `use_only` disables the filter. -/
def skipOld (useOnly : Option (List String)) (k : String) : Bool :=
  match useOnly with
  | none => false
  | some l => !l.isEmpty && !l.contains k

/-- The guard `vids and vid not in vids`. -/
def vidSkip (vids : Option (List String)) (v : String) : Bool :=
  match vids with
  | none => false
  | some vs => !vs.isEmpty && !vs.contains v

/-- The install loop over the remote listing. Returns the keys
installed by `put_bundle` (in order) and, when an uncaught exception
aborts the loop, the error; keys installed before the abort stay
installed (each install commits separately). -/
def syncInstallLoop (P : SyncParams) (useOnly : Option (List String)) :
    List String → List String × Option SyncError
  | [] => ([], none)
  | k :: rest =>
    if P.allKeys.contains k then syncInstallLoop P useOnly rest
    else if skipOld useOnly k then syncInstallLoop P useOnly rest
    else
      match P.fetch k with
      | .s3Error => syncInstallLoop P useOnly rest
      | .loadRaise => ([], some (.loadError k))
      | .noBundle => syncInstallLoop P useOnly rest
      | .bundle vid =>
        if vidSkip P.vids vid then syncInstallLoop P useOnly rest
        else
          match P.put k with
          | .notABundle => syncInstallLoop P useOnly rest
          | .otherError => ([], some (.putError k))
          | .ok =>
            let (l, e) := syncInstallLoop P useOnly rest
            (k :: l, e)

/-- One remote pass of `sync_remotes`: when `last_only` is set, compute
`use_only` first (a `NameError` there aborts the pass before any
install), then run the install loop. -/
def syncRemotePass (P : SyncParams) (lastOnly : Bool) (remoteList : List String) :
    List String × Option SyncError :=
  if lastOnly then
    match computeUseOnly remoteList with
    | .error _ => ([], some .nameError)
    | .ok useOnly => syncInstallLoop P (some useOnly) remoteList
  else
    syncInstallLoop P none remoteList

/-- A key survives every filter and both its fetch and its install
succeed: exactly the keys that the loop installs when no uncaught
exception aborts it. -/
def installable (P : SyncParams) (useOnly : Option (List String)) (k : String) : Bool :=
  !P.allKeys.contains k &&
  !skipOld useOnly k &&
  (match P.fetch k with
   | .bundle vid => !vidSkip P.vids vid && (P.put k == .ok)
   | _ => false)

/-! ## The artifact ledger and its state machine

Ledger records (`files` rows) carry a state string among `new`,
`installed`, `pushed`. `Library.push` selects records with
state `new` only; `put_bundle` returns early when a BUNDLE record
for the vid already exists and `force` is not set.
-/

/-- Ledger record state. -/
inductive StateTag
  | new
  | installed
  | pushed
  deriving DecidableEq, Repr

/-- Position of a state in the forward order `new, installed, pushed`. -/
def stateRank : StateTag → Nat
  | .new => 0
  | .installed => 1
  | .pushed => 2

/-- Modelled from the spec: `Files.install_bundle_file` and
`Files.install_partition_file` live in `files.py`, which is not under
`src/`. Per the spec, the ledger record is created at the requested
state when absent, and "state only moves forward
new, installed, pushed except on explicit reset", so installing never
lowers the state of an existing record. -/
def installFile : Option StateTag → StateTag → StateTag
  | none, req => req
  | some s, req => if stateRank s < stateRank req then req else s

/-- Library operations that touch the ledger record of one artifact:
`put_bundle` with its `force` flag and requested file state,
`put_partition` with its requested file state (both also cover the
installs performed by `sync_library` and `sync_remotes`, which call
them), and `push` over records in state `new`. -/
inductive LedgerOp
  | putB (force : Bool) (req : StateTag)
  | putP (req : StateTag)
  | push
  deriving DecidableEq, Repr

/-- Effect of one operation on the ledger state of one record
(`none` = no record yet). `put_bundle` without `force` returns early
when the record exists; `push` queries records in state `new`, so it only
touches records in state `new`, setting them to `pushed`. -/
def stepOp : LedgerOp → Option StateTag → Option StateTag
  | .putB force req, some s => if force then some (installFile (some s) req) else some s
  | .putB _ req, none => some (installFile none req)
  | .putP req, cur => some (installFile cur req)
  | .push, some s => some (if s = .new then .pushed else s)
  | .push, none => none

/-- Rank of an optional record state; a missing record ranks lowest. -/
def stateRankO : Option StateTag → Nat
  | none => 0
  | some s => stateRank s

/-- The state trace of one record under a sequence of operations. -/
def ledgerTrace (ops : List LedgerOp) (s : Option StateTag) : List (Option StateTag) :=
  match ops with
  | [] => [s]
  | op :: rest => s :: ledgerTrace rest (stepOp op s)

/-! ## `Library.push`

For a single ref: resolve it, look up the installed ledger record in
state `new` (raising when absent), then either short-circuit on
`upstream.has(cache_key)` or stream the file with `upstream.put`.
State mutation and the commit are guarded by `dry_run`.
-/

/-- The identity fields `push` uses. -/
structure IdentM where
  vid : String
  cacheKey : String
  deriving DecidableEq, Repr

/-- Environment of a `push` call: the resolver, the ledger query for an
installed record in state `new` (by vid, returning its path), and the
upstream membership probe. -/
structure PushEnv where
  resolve : String → Option IdentM
  newFilePath : String → Option String
  upstreamHas : String → Bool

/-- Observable outcome of a single-ref `push`: the returned `what`
tag, the number of `upstream.put` calls (byte transfers), the ledger
record state after the call (the record was in state `new` when found),
the number of commits, and the number of callback invocations. -/
structure PushOut where
  what : String
  putCalls : Nat
  recordState : StateTag
  commits : Nat
  cbCount : Nat
  deriving DecidableEq, Repr

/-- `Library.push(upstream, ref, cb, dry_run)` for a single ref. -/
def push1 (env : PushEnv) (ref : String) (dryRun : Bool) : Except String PushOut :=
  match env.resolve ref with
  | none => .error "no id from database for ref"
  | some ident =>
    match env.newFilePath ident.vid with
    | none => .error "no installed record in state new"
    | some _path =>
      if env.upstreamHas ident.cacheKey then
        .ok { what := "has"
              putCalls := 0
              recordState := if dryRun then .new else .pushed
              commits := if dryRun then 0 else 1
              cbCount := 1 }
      else
        .ok { what := "pushed"
              putCalls := if dryRun then 0 else 1
              recordState := if dryRun then .new else .pushed
              commits := if dryRun then 0 else 1
              cbCount := 2 }

/-! ## `Library.put_bundle` and `Library.put_partition`

`put_bundle` returns early — `(cache path, False)` — when a BUNDLE
ledger record for the vid already exists and `force` is not set.
Otherwise it installs the catalog rows, the ledger record, optionally
every partition, copies the file into the local cache when absent,
indexes the bundle when a documentation cache is configured, and marks
the derived caches updated.
-/

/-- Partition fields used by `put_partition`. -/
structure PartM where
  cacheKey : String
  fileExists : Bool
  deriving DecidableEq, Repr

/-- Bundle fields used by `put_bundle`. -/
structure BundleM where
  vid : String
  cacheKey : String
  parts : List PartM
  deriving DecidableEq, Repr

/-- Observable library state touched by `put_bundle`: the ledger BUNDLE
records by vid, the ledger PARTITION records by cache key, the catalog
datasets installed by `database.install_bundle`, the local cache keys,
the search index contents, the search commits, and the derived-cache
invalidation marks. -/
structure LibState where
  bundleRefs : List String
  partRefs : List String
  dbInstalled : List String
  cacheKeys : List String
  indexedDatasets : List String
  indexedParts : List String
  searchCommits : Nat
  marked : List String
  deriving DecidableEq, Repr

/-- `Library.put_partition`: install the ledger record for the
partition (modelled from the spec, `files.py` is not under `src/`) and
copy the file into the local cache when it is absent and the partition
file exists on disk. -/
def putPartitionOp (st : LibState) (p : PartM) : LibState :=
  let st1 := { st with partRefs := st.partRefs ++ [p.cacheKey] }
  if !st1.cacheKeys.contains p.cacheKey && p.fileExists then
    { st1 with cacheKeys := st1.cacheKeys ++ [p.cacheKey] }
  else st1

/-- `Library.put_bundle`: the boolean result is the `installed` flag
returned with the cache path (`False` on the early idempotent return). -/
def putBundleOp (st : LibState) (b : BundleM)
    (installPartitions : Bool) (docCache : Bool) (force : Bool) : LibState × Bool :=
  if !force && st.bundleRefs.contains b.vid then (st, false)
  else
    let st1 := { st with dbInstalled := st.dbInstalled ++ [b.vid] }
    let st2 := { st1 with bundleRefs := st1.bundleRefs ++ [b.vid] }
    let st3 := if installPartitions then b.parts.foldl putPartitionOp st2 else st2
    let st4 :=
      if !st3.cacheKeys.contains b.cacheKey then
        { st3 with cacheKeys := st3.cacheKeys ++ [b.cacheKey] }
      else st3
    let st5 :=
      if docCache then
        { st4 with indexedDatasets := st4.indexedDatasets ++ [b.vid]
                   indexedParts := st4.indexedParts ++ b.parts.map (fun p => p.cacheKey)
                   searchCommits := st4.searchCommits + 1 }
      else st4
    let st6 := { st5 with marked := st5.marked ++ [b.vid, "bundle_index", "library_info"] }
    (st6, true)

/-! ## The `sync_library` walk

For every file of the cache directory tree ending in `.db`, the walk
calls `_create_bundle` and reads `b.identity` inside a nested `try`:
an exception from `b.identity` is logged and the file skipped
(`continue`); a `NotFoundError` from the load is passed over silently
(probably a partition); any other exception from the load is logged and
re-raised, aborting the walk. Bundles whose identity reports
`is_bundle` are collected.
-/

/-- Outcome of opening one walked file. -/
inductive OpenResult
  | identityError
  | notFound
  | createError
  | opened (isBundle : Bool)
  deriving DecidableEq, Repr

/-- One file of the walked cache tree. -/
structure WalkFile where
  name : String
  result : OpenResult
  deriving DecidableEq, Repr

/-- The `file_.endswith(".db")` guard. -/
def endsWithDb (s : String) : Bool :=
  s.data.reverse.take 3 == ['b', 'd', '.']

/-- The collection phase of `sync_library`: returns the names collected
for installation and the count of logged identity failures, or the name
of the file whose load aborted the walk. -/
def syncWalk : List WalkFile → Except String (List String × Nat)
  | [] => .ok ([], 0)
  | f :: rest =>
    if endsWithDb f.name then
      match f.result with
      | .identityError => (syncWalk rest).map (fun p => (p.1, p.2 + 1))
      | .notFound => syncWalk rest
      | .createError => .error f.name
      | .opened true => (syncWalk rest).map (fun p => (f.name :: p.1, p.2))
      | .opened false => syncWalk rest
    else syncWalk rest

/-! ## `Library.has` and `Library.remove` -/

/-- The identity fields `has` reads: the cache key, and the partition
cache key when the identity names a partition. -/
structure HasIdent where
  cacheKey : String
  partKey : Option String
  deriving DecidableEq, Repr

/-- Python errors surfaced by `has`. -/
inductive PyError
  | attributeError
  deriving DecidableEq, Repr

/-- `Library.has(ref)`: resolve the ref, then read `.partition` on the
result. When the ref does not resolve, `resolve` returns `None` and the
attribute read raises `AttributeError` instead of returning `False`. -/
def hasRef (resolve : String → Option HasIdent) (cacheHas : String → Bool)
    (ref : String) : Except PyError Bool :=
  match resolve ref with
  | none => .error .attributeError
  | some d =>
    match d.partKey with
    | some pk => .ok (cacheHas pk)
    | none => .ok (cacheHas d.cacheKey)

/-- Effect trace of `Library.remove`: the bundles removed from the
library database, the vids marked updated, and the cache-tier removal
attempts as `(tier, key)` pairs. -/
structure RemoveTrace where
  dbRemoved : List String
  marked : List String
  tierRemovals : List (String × String)
  deriving DecidableEq, Repr

/-- Modelled from the spec: the ckcache `remove(key, propagate)`
operation (the ckcache package is not under `src/`) removes the key
from the local tier and, when `propagate` is set, also attempts removal
from every remote tier. -/
def cacheRemove (remotes : List String) (key : String) (propagate : Bool) :
    List (String × String) :=
  ("local", key) :: (if propagate then remotes.map (fun r => (r, key)) else [])

/-- `Library.remove(bundle)`: remove the bundle records from the
library database, mark the vid updated, and remove the cache key with
`propagate=True`. -/
def removeBundle (remotes : List String) (vid cacheKey : String) : RemoveTrace :=
  { dbRemoved := [vid]
    marked := [vid]
    tierRemovals := cacheRemove remotes cacheKey true }

/-! ## Concrete environments used by evaluations and witnesses -/

/-- A remote pass where every fetch succeeds (the vid is the key) and
every install succeeds; no keys are yet attributed to the remote and no
`vids` restriction applies. -/
def allOkParams : SyncParams :=
  { fetch := fun k => .bundle k
    put := fun _ => .ok
    allKeys := []
    vids := none }

/-- A remote pass where installing the first key raises a generic
exception and everything else succeeds. -/
def abortParams : SyncParams :=
  { fetch := fun k => .bundle k
    put := fun k => if k == "k1.db" then .otherError else .ok
    allKeys := []
    vids := none }

/-- A remote pass where the first key fails to parse as a valid bundle
(`NotABundle`) and everything else succeeds. -/
def notABundleParams : SyncParams :=
  { fetch := fun k => .bundle k
    put := fun k => if k == "p.db" then .notABundle else .ok
    allKeys := []
    vids := none }

/-- A push environment where the ref resolves, an installed ledger
record in state `new` exists, and the upstream already has the key. -/
def pushEnvHasW : PushEnv :=
  { resolve := fun _ => some { vid := "d001", cacheKey := "k001" }
    newFilePath := fun _ => some "path"
    upstreamHas := fun _ => true }

/-- A library state that already holds a BUNDLE ledger record for vid
`d001`. -/
def libStW : LibState :=
  { bundleRefs := ["d001"], partRefs := [], dbInstalled := [], cacheKeys := []
    indexedDatasets := [], indexedParts := [], searchCommits := 0, marked := [] }

/-- A bundle whose vid is already recorded in `libStW`. -/
def bundleW : BundleM := { vid := "d001", cacheKey := "d001-1.0.0.db", parts := [] }

/-! ## Helper lemmas -/

/-- No ledger operation lowers the rank of the state of a record. -/
lemma stepOp_mono (op : LedgerOp) (s : Option StateTag) :
    stateRankO s ≤ stateRankO (stepOp op s) := by
  cases op with
  | putB force req =>
    cases s with
    | none => cases force <;> cases req <;> decide
    | some t => cases force <;> cases req <;> cases t <;> decide
  | putP req =>
    cases s with
    | none => cases req <;> decide
    | some t => cases req <;> cases t <;> decide
  | push =>
    cases s with
    | none => decide
    | some t => cases t <;> decide

/-- A state trace starts at the initial state. -/
lemma ledgerTrace_head (ops : List LedgerOp) (s : Option StateTag) :
    (ledgerTrace ops s).head? = some s := by
  cases ops <;> simp [ledgerTrace]

/-! ## Claims -/

/-- Claim C1 (code bug evaluation). The spec states that with
`last_only=true` exactly the maximum-revision key of each group is
installed, so the remote listing of keys a-1.0.0.db, a-1.0.1.db and
b-1.0.0.db should install a-1.0.1.db and b-1.0.0.db. The code instead
compares only the trailing digit group (the patch component) against a
defaultdict entry that starts at 0 using a strict greater-than, so
b-1.0.0.db (patch 0) never wins its own group and is skipped as an old
version: with every fetch and install succeeding, the pass installs
exactly a-1.0.1.db. -/
theorem c1_sync_remotes_last_only_example :
    syncRemotePass allOkParams true ["a-1.0.0.db", "a-1.0.1.db", "b-1.0.0.db"]
      = (["a-1.0.1.db"], none) := by rfl

/-- Claim C2 (amended). Inside a `sync_remotes` pass, an S3 fetch
error, a falsy bundle load and a `NotABundle` install failure are each
caught and logged and the loop continues to the next key — so a batch
whose only failures are of those kinds still installs every other
artifact, namely exactly the keys that pass the filters and whose fetch
and install succeed. Any other install or load exception is logged and
then re-raised, aborting the pass (the claim as stated, that every
failure is caught, is refuted by `c2_install_error_aborts_batch`). -/
theorem c2_sync_remotes_partial_failure (P : SyncParams)
    (useOnly : Option (List String)) (keys : List String)
    (h : ∀ k ∈ keys, P.put k ≠ PutResult.otherError ∧ P.fetch k ≠ FetchResult.loadRaise) :
    syncInstallLoop P useOnly keys = (keys.filter (installable P useOnly), none) := by
  induction keys with
  | nil => rfl
  | cons k rest ih =>
    have hk := h k (List.mem_cons_self k rest)
    have ih' := ih (fun x hx => h x (List.mem_cons_of_mem k hx))
    rw [List.filter_cons]
    by_cases h1 : k ∈ P.allKeys
    · have hi : installable P useOnly k = false := by simp [installable, h1]
      simp [syncInstallLoop, h1, hi, ih']
    · by_cases h2 : skipOld useOnly k = true
      · have hi : installable P useOnly k = false := by simp [installable, h1, h2]
        simp [syncInstallLoop, h1, h2, hi, ih']
      · rw [Bool.not_eq_true] at h2
        cases hf : P.fetch k with
        | s3Error =>
          have hi : installable P useOnly k = false := by simp [installable, h1, h2, hf]
          simp [syncInstallLoop, h1, h2, hf, hi, ih']
        | loadRaise => exact absurd hf hk.2
        | noBundle =>
          have hi : installable P useOnly k = false := by simp [installable, h1, h2, hf]
          simp [syncInstallLoop, h1, h2, hf, hi, ih']
        | bundle vid =>
          by_cases h3 : vidSkip P.vids vid = true
          · have hi : installable P useOnly k = false := by simp [installable, h1, h2, hf, h3]
            simp [syncInstallLoop, h1, h2, hf, h3, hi, ih']
          · rw [Bool.not_eq_true] at h3
            cases hp : P.put k with
            | notABundle =>
              have hi : installable P useOnly k = false := by
                simp [installable, h1, h2, hf, h3, hp]
              simp [syncInstallLoop, h1, h2, hf, h3, hp, hi, ih']
            | otherError => exact absurd hp hk.1
            | ok =>
              have hi : installable P useOnly k = true := by
                simp [installable, h1, h2, hf, h3, hp]
              simp [syncInstallLoop, h1, h2, hf, h3, hp, hi, ih']

/-- Claim C2 counterexample. When installing the first key raises a
generic exception (not `NotABundle`), the exception is re-raised and
the pass aborts: the second key of the batch, whose fetch and install
would both succeed, is not installed, refuting the claim that a failure
to install one artifact always lets the loop continue. -/
theorem c2_install_error_aborts_batch :
    syncInstallLoop abortParams none ["k1.db", "k2.db"]
      = ([], some (SyncError.putError "k1.db")) := by rfl

/-- Claim C2 witness: a batch where the first key fails with
`NotABundle` still installs the second key. -/
theorem c2_sync_remotes_partial_failure_witness :
    syncInstallLoop notABundleParams none ["p.db", "q.db"] = (["q.db"], none) :=
  c2_sync_remotes_partial_failure notABundleParams none ["p.db", "q.db"] (by decide)

/-- Claim C3: for a ref that resolves and whose ledger record is in
state `new`, when the upstream already has the cache key, `push` with
`dry_run=false` calls `upstream.put` zero times (zero bytes
transferred), still transitions the record state to `pushed`, and
commits. -/
theorem c3_push_short_circuit (env : PushEnv) (ref : String) (ident : IdentM)
    (path : String)
    (h1 : env.resolve ref = some ident)
    (h2 : env.newFilePath ident.vid = some path)
    (h3 : env.upstreamHas ident.cacheKey = true) :
    push1 env ref false =
      .ok { what := "has", putCalls := 0, recordState := StateTag.pushed,
            commits := 1, cbCount := 1 } := by
  simp [push1, h1, h2, h3]

/-- Claim C3 witness at a concrete push environment. -/
theorem c3_push_short_circuit_witness :
    push1 pushEnvHasW "x" false =
      .ok { what := "has", putCalls := 0, recordState := StateTag.pushed,
            commits := 1, cbCount := 1 } :=
  c3_push_short_circuit pushEnvHasW "x" { vid := "d001", cacheKey := "k001" } "path"
    rfl rfl rfl

/-- Claim C4 (code bug evaluation). The spec states that a remote key
without a parseable revision suffix is logged and excluded from the
version comparison, treated as revision 0 and never selected as the
latest of its group. In the code the `version` variable keeps its value
from the previous loop iteration after the failed search, so the
unparseable key junk inherits revision 7 from a-3.0.7.db and is
selected as the latest of its own group (it appears in `use_only`);
and when the unparseable key comes first, `version` is still unbound
and the comparison raises a `NameError` that aborts `sync_remotes`. -/
theorem c4_unparseable_version_key :
    computeUseOnly ["a-3.0.7.db", "junk"] = .ok ["a-3.0.7.db", "junk"]
    ∧ computeUseOnly ["junk"] = .error () := ⟨rfl, rfl⟩

/-- Claim C5: over any sequence of ledger operations (`put_bundle`,
`put_partition`, the installs done by the sync procedures, and `push`),
the state trace of a record never moves backward in the order
new, installed, pushed; and `push` maps state `new` to `pushed` while
leaving states `installed` and `pushed` unchanged. -/
theorem c5_ledger_state_monotone (ops : List LedgerOp) (s : Option StateTag) :
    List.Chain' (fun a b => stateRankO a ≤ stateRankO b) (ledgerTrace ops s)
    ∧ stepOp LedgerOp.push (some StateTag.new) = some StateTag.pushed
    ∧ stepOp LedgerOp.push (some StateTag.installed) = some StateTag.installed
    ∧ stepOp LedgerOp.push (some StateTag.pushed) = some StateTag.pushed := by
  refine ⟨?_, rfl, rfl, rfl⟩
  induction ops generalizing s with
  | nil => simp [ledgerTrace]
  | cons op rest ih =>
    simp only [ledgerTrace]
    rw [List.chain'_cons']
    refine ⟨?_, ih (stepOp op s)⟩
    intro y hy
    rw [ledgerTrace_head, Option.mem_def, Option.some_inj] at hy
    subst hy
    exact stepOp_mono op s

/-- Claim C6: for a ref that resolves and whose ledger record is in
state `new`, `push` with `dry_run=true` performs the upstream has-check
and returns the action that would occur, but leaves the record state at
`new`, commits nothing, and calls `upstream.put` zero times. -/
theorem c6_push_dry_run_frame (env : PushEnv) (ref : String) (ident : IdentM)
    (path : String)
    (h1 : env.resolve ref = some ident)
    (h2 : env.newFilePath ident.vid = some path) :
    push1 env ref true =
      .ok { what := if env.upstreamHas ident.cacheKey then "has" else "pushed",
            putCalls := 0, recordState := StateTag.new, commits := 0,
            cbCount := if env.upstreamHas ident.cacheKey then 1 else 2 } := by
  by_cases h3 : env.upstreamHas ident.cacheKey = true <;>
    simp_all [push1, h1, h2, h3]

/-- Claim C6 witness at a concrete push environment. -/
theorem c6_push_dry_run_frame_witness :
    push1 pushEnvHasW "x" true =
      .ok { what := "has", putCalls := 0, recordState := StateTag.new,
            commits := 0, cbCount := 1 } :=
  c6_push_dry_run_frame pushEnvHasW "x" { vid := "d001", cacheKey := "k001" } "path"
    rfl rfl

/-- Claim C7: when a BUNDLE ledger record for the vid of the bundle
already exists and `force` is false, `put_bundle` returns the library
state unchanged — no catalog install, no ledger write, no cache copy,
no search indexing, no invalidation marks — and reports
`installed=false`. -/
theorem c7_put_bundle_idempotent (st : LibState) (b : BundleM) (ip dc : Bool)
    (h : b.vid ∈ st.bundleRefs) :
    putBundleOp st b ip dc false = (st, false) := by
  simp [putBundleOp, h]

/-- Claim C7 witness at a concrete state already holding the record. -/
theorem c7_put_bundle_idempotent_witness :
    putBundleOp libStW bundleW true true false = (libStW, false) :=
  c7_put_bundle_idempotent libStW bundleW true true (by decide)

/-- Claim C8: during the `sync_library` walk, when no file load raises
an uncaught exception, every file ending in .db whose identity cannot
be extracted is logged and skipped while the walk continues, and the
files collected for installation are exactly the files ending in .db
that open successfully and are bundles (with the log count equal to the
number of identity failures). -/
theorem c8_sync_library_walk (files : List WalkFile)
    (h : ∀ f ∈ files, f.result ≠ OpenResult.createError) :
    syncWalk files = .ok
      ((files.filter
          (fun f => endsWithDb f.name && f.result == OpenResult.opened true)).map
        WalkFile.name,
       (files.filter
          (fun f => endsWithDb f.name && f.result == OpenResult.identityError)).length) := by
  induction files with
  | nil => rfl
  | cons f rest ih =>
    have hf := h f (List.mem_cons_self f rest)
    have ih' := ih (fun x hx => h x (List.mem_cons_of_mem f hx))
    rw [List.filter_cons, List.filter_cons]
    by_cases h1 : endsWithDb f.name = true
    · cases hr : f.result with
      | identityError => simp [syncWalk, Except.map, h1, hr, ih']
      | notFound => simp [syncWalk, h1, hr, ih']
      | createError => exact absurd hr hf
      | opened ib => cases ib <;> simp [syncWalk, Except.map, h1, hr, ih']
    · rw [Bool.not_eq_true] at h1
      simp [syncWalk, h1, ih']

/-- Claim C8 witness: a walk over five files, one .db file with an
identity failure (logged and skipped), one .db bundle (collected), a
non-.db file, a .db non-bundle, and a .db partition file. -/
theorem c8_sync_library_walk_witness :
    syncWalk [{ name := "x.db", result := OpenResult.identityError },
              { name := "y.db", result := OpenResult.opened true },
              { name := "z.txt", result := OpenResult.opened true },
              { name := "w.db", result := OpenResult.opened false },
              { name := "v.db", result := OpenResult.notFound }]
      = .ok (["y.db"], 1) :=
  c8_sync_library_walk _ (by decide)

/-- Claim C9: for every reference that does not resolve to an identity,
`Library.has` raises an `AttributeError` (the `None` result of
`resolve` is dereferenced) instead of returning false. -/
theorem c9_has_raises_on_unresolved (resolve : String → Option HasIdent)
    (cacheHas : String → Bool) (ref : String)
    (h : resolve ref = none) :
    hasRef resolve cacheHas ref = .error PyError.attributeError := by
  simp [hasRef, h]

/-- Claim C9 witness with a resolver that resolves nothing. -/
theorem c9_has_raises_on_unresolved_witness :
    hasRef (fun _ => none) (fun _ => false) "d000" = .error PyError.attributeError :=
  c9_has_raises_on_unresolved (fun _ => none) (fun _ => false) "d000" rfl

/-- Claim C10: `Library.remove` always deletes the bundle records from
the library database and removes the cache key with `propagate=true`,
so a removal attempt is made on the local tier and on every remote
tier; there is no local-only removal path. -/
theorem c10_remove_always_propagates (remotes : List String) (vid ck : String) :
    (removeBundle remotes vid ck).dbRemoved = [vid] ∧
    (removeBundle remotes vid ck).marked = [vid] ∧
    (removeBundle remotes vid ck).tierRemovals
      = ("local", ck) :: remotes.map (fun r => (r, ck)) :=
  ⟨rfl, rfl, rfl⟩

end Ambry
